import Mathlib

/-!
Shallow embedding of the QERP DMET fragment-construction pipeline
(`src/dmet/dmet_pyscf.py`) and proofs about its specification.

Conventions:
* Python strings are Lean `String`s; Python `float` values appearing in the
  pipeline are modelled as exact rationals `ℚ` (the claims under study only
  compare parsed values for equality, never do rounding arithmetic).
* Python exceptions are modelled with `Except Err`; the single `ValueError`
  class of the source is split into one constructor per distinct `raise`
  site so that statements can distinguish them.
* External numerical libraries (PySCF, Qiskit Nature) are not part of the
  repository; where a claim depends on their behaviour the corresponding
  definition is modelled from the spec and marked `Modelled from the spec:`
  in its doc-string.
-/

namespace QERP

/-- Errors raised by the pipeline.  The source raises `ValueError` at each of
these sites; the spec groups them as `FormatError` (geometry input) and
`ConfigurationError` (configuration problems). -/
inductive Err where
  /-- Raised by `_parse_xyz`: fewer than 2 non-empty lines. -/
  | xyzTooShort : Err
  /-- Raised by `_parse_xyz`: first non-empty line is not an integer. -/
  | xyzBadCount : Err
  /-- Raised by `_parse_xyz`: an atom data line with fewer than 4 fields, or a
  coordinate field that Python `float()` rejects. -/
  | xyzBadLine (line : String) : Err
  /-- Raised by `_parse_xyz`: declared atom count differs from the parsed line count. -/
  | xyzCountMismatch (expected : ℤ) (got : ℕ) : Err
  /-- Raised by `_normalise_geometry`: a coordinate without exactly three components. -/
  | geomBadArity (symbol : String) : Err
  /-- Active-space selection rejected the resolved electron/orbital counts. -/
  | invalidActiveSpace : Err
  /-- Raised by `_build_mapper`: parity reduction requested without particle counts. -/
  | twoQubitReductionRequiresParticles : Err
  /-- Raised by `_build_mapper`: unsupported mapper name. -/
  | unsupportedMapper (name : String) : Err
  deriving DecidableEq

/-- The spec's `FormatError` kind: malformed geometry input. -/
def Err.isFormatError : Err → Bool
  | .xyzTooShort => true
  | .xyzBadCount => true
  | .xyzBadLine _ => true
  | .xyzCountMismatch _ _ => true
  | .geomBadArity _ => true
  | _ => false

/-- The spec's `ConfigurationError` kind: inconsistent or unsupported
configuration. -/
def Err.isConfigurationError : Err → Bool
  | .invalidActiveSpace => true
  | .twoQubitReductionRequiresParticles => true
  | .unsupportedMapper _ => true
  | _ => false

/-- The exact message of the `ValueError` raised by `_build_mapper` when
two-qubit reduction is requested without particle counts
(`dmet_pyscf.py` line 223). -/
def twoQubitReductionMessage : String := "Two-qubit reduction requires particle counts."

/-! ### Python string primitives -/

/-- The common whitespace characters recognised by Python's `str.strip()` and
`str.split()`. -/
def isPySpace (c : Char) : Bool :=
  c = ' ' ∨ c = '\t' ∨ c = '\n' ∨ c = '\r'

/-- Remove leading and trailing whitespace from a character list. -/
def stripChars (cs : List Char) : List Char :=
  ((cs.dropWhile isPySpace).reverse.dropWhile isPySpace).reverse

/-- Python `str.strip()` with no argument. -/
def pyStrip (s : String) : String :=
  ⟨stripChars s.data⟩

/-- Lower-case the ASCII letters of a string, Python `str.lower()` on the
identifiers the pipeline compares. -/
def pyToLower (s : String) : String :=
  ⟨s.data.map (fun c => if 'A' ≤ c ∧ c ≤ 'Z' then Char.ofNat (c.toNat + 32) else c)⟩

/-- Numeric value of a digit string, `foldl` as Python `int` accumulation. -/
def digitsFold (cs : List Char) : ℕ :=
  cs.foldl (fun a c => a * 10 + (c.toNat - 48)) 0

/-- Parse a non-empty all-digit character list. -/
def parseDigits (cs : List Char) : Option ℕ :=
  if cs ≠ [] ∧ cs.all Char.isDigit then some (digitsFold cs) else none

/-- Modelled from the spec: Python's `int()` builtin applied to a stripped
string, restricted to an optional sign followed by decimal digits. -/
def pyParseInt (s : String) : Option ℤ :=
  match stripChars s.data with
  | '+' :: rest => (parseDigits rest).map Int.ofNat
  | '-' :: rest => (parseDigits rest).map (fun n => -(n : ℤ))
  | cs => (parseDigits cs).map Int.ofNat

/-- Unsigned decimal literal: digits, optionally a point and more digits. -/
def parseDecimalCore (cs : List Char) : Option ℚ :=
  let ip := cs.takeWhile Char.isDigit
  let rest := cs.dropWhile Char.isDigit
  match rest with
  | [] => if ip = [] then none else some ((digitsFold ip : ℕ) : ℚ)
  | '.' :: fp =>
      if fp.all Char.isDigit ∧ (ip ≠ [] ∨ fp ≠ []) then
        some (((digitsFold ip : ℕ) : ℚ) + ((digitsFold fp : ℕ) : ℚ) / ((10 : ℚ) ^ fp.length))
      else none
  | _ => none

/-- Modelled from the spec: Python's `float()` builtin on coordinate tokens,
restricted to plain decimal literals with an optional sign (the geometry
format's real-valued coordinates). -/
def pyParseFloat (s : String) : Option ℚ :=
  match stripChars s.data with
  | '+' :: cs => parseDecimalCore cs
  | '-' :: cs => (parseDecimalCore cs).map Neg.neg
  | cs => parseDecimalCore cs

/-- Worker for `splitWs`: accumulate the current field (reversed) and emit it
at each whitespace run. -/
def splitWsAux : List Char → List Char → List String
  | [], acc => if acc = [] then [] else [⟨acc.reverse⟩]
  | c :: cs, acc =>
      if isPySpace c then
        if acc = [] then splitWsAux cs [] else ⟨acc.reverse⟩ :: splitWsAux cs []
      else splitWsAux cs (c :: acc)

/-- Python `str.split()` with no separator: split on whitespace runs,
discarding empty pieces. -/
def splitWs (s : String) : List String :=
  splitWsAux s.data []

/-- The line preprocessing of `_parse_xyz`:
`[line.strip() for line in ... if line.strip()]`. -/
def stripLines (ls : List String) : List String :=
  (ls.map pyStrip).filter (fun l => l ≠ "")

/-- Python list slicing `l[i:j]` with full negative-index semantics. -/
def pySlice {α : Type} (l : List α) (i j : ℤ) : List α :=
  let n := l.length
  let norm : ℤ → ℕ := fun k => if k < 0 then ((n : ℤ) + k).toNat else min k.toNat n
  (l.drop (norm i)).take (norm j - norm i)

/-- First-error accumulation over a list, as the `for` loops of
`_parse_xyz` and `_normalise_geometry`: stop at the first raise. -/
def exceptMapM {α β : Type} (f : α → Except Err β) : List α → Except Err (List β)
  | [] => .ok []
  | a :: as =>
      match f a with
      | .error e => .error e
      | .ok b =>
          match exceptMapM f as with
          | .error e => .error e
          | .ok bs => .ok (b :: bs)

/-- Decidable equality of pipeline results, used to evaluate concrete runs. -/
instance {ε α : Type} [DecidableEq ε] [DecidableEq α] : DecidableEq (Except ε α)
  | .error a, .error b =>
      if h : a = b then .isTrue (by rw [h]) else .isFalse (by intro hh; cases hh; exact h rfl)
  | .error a, .ok b => .isFalse (fun hh => Except.noConfusion hh)
  | .ok a, .error b => .isFalse (fun hh => Except.noConfusion hh)
  | .ok a, .ok b =>
      if h : a = b then .isTrue (by rw [h]) else .isFalse (by intro hh; cases hh; exact h rfl)

/-! ### Geometry parsing (`_parse_xyz`, `_normalise_geometry`) -/

/-- An atom record: element symbol and a 3-tuple of coordinates. -/
abbrev Atom : Type := String × (ℚ × ℚ × ℚ)

/-- One iteration of the `for line in atom_lines` loop of `_parse_xyz`:
split the line, require at least 4 fields, convert fields 1..3 with
`float()`. -/
def parseAtomLine (line : String) : Except Err Atom :=
  match splitWs line with
  | sym :: a :: b :: c :: _ =>
      match pyParseFloat a, pyParseFloat b, pyParseFloat c with
      | some x, some y, some z => .ok (sym, (x, y, z))
      | _, _, _ => .error (.xyzBadLine line)
  | _ => .error (.xyzBadLine line)

/-- The function `_parse_xyz` on the list of raw text lines of the file. -/
def parseXyz (ls : List String) : Except Err (List Atom) :=
  let raw := stripLines ls
  if raw.length < 2 then .error .xyzTooShort
  else
    match pyParseInt (raw.headD "") with
    | none => .error .xyzBadCount
    | some expectedAtoms =>
        let atomLines := pySlice raw 2 (2 + expectedAtoms)
        match exceptMapM parseAtomLine atomLines with
        | .error e => .error e
        | .ok geometry =>
            if (geometry.length : ℤ) ≠ expectedAtoms then
              .error (.xyzCountMismatch expectedAtoms geometry.length)
            else .ok geometry

/-- The `_normalise_geometry` body for one atom: `tuple(float(v) for v in coords)`
(identity on values already numeric) then the arity check. -/
def normaliseCoord (sym : String) (cs : List ℚ) : Except Err (ℚ × ℚ × ℚ) :=
  match cs with
  | [x, y, z] => .ok (x, y, z)
  | _ => .error (.geomBadArity sym)

/-- The function `_normalise_geometry`. -/
def normaliseGeometry (g : List (String × List ℚ)) : Except Err (List Atom) :=
  exceptMapM (fun p => (normaliseCoord p.1 p.2).map (fun c => (p.1, c))) g

/-! ### Configuration and result records -/

/-- The `DistanceUnit` enum of qiskit-nature (only the two values the config uses). -/
inductive DistanceUnit where
  | angstrom : DistanceUnit
  | bohr : DistanceUnit
  deriving DecidableEq

/-- The `DMETConfig` record, with the source's field defaults. -/
structure DMETConfig where
  basis : String := "sto-3g"
  charge : ℤ := 0
  spin : ℤ := 0
  distanceUnit : DistanceUnit := .angstrom
  activeElectrons : Option ℤ := none
  activeOrbitals : Option ℤ := none
  fragmentOrbitals : Option (List ℤ) := none
  mapper : String := "parity"
  twoQubitReduction : Bool := true
  deriving DecidableEq

/-- The full-space electronic-structure problem returned by `driver.run()`.
Modelled from the spec: only the fields the pipeline reads are kept —
total particle counts (alpha, beta) and the dimension of the alpha-spin
electronic integrals. -/
structure ElectronicProblem where
  numParticles : ℕ × ℕ
  alphaDimension : ℕ
  deriving DecidableEq

/-- Modelled from the spec: results of the two external numerical calls
(`scf.RHF(mol).kernel()` and `PySCFDriver(...).run()`) for one
geometry/configuration pair; the pipeline is a pure function of these. -/
structure Env where
  hartreeFockEnergy : ℚ
  fullProblem : ElectronicProblem
  deriving DecidableEq

/-- Total particle count of the full problem, `sum(problem.num_particles)`. -/
def totalParticles (p : ElectronicProblem) : ℕ :=
  p.numParticles.1 + p.numParticles.2

/-- The function `_infer_spatial_orbitals`: both branches return the dimension of the
alpha-spin integrals. -/
def inferSpatialOrbitals (p : ElectronicProblem) : ℕ :=
  p.alphaDimension

/-- Python `value or default` for an optional integer field: `None` and the
falsy value `0` both select the default. -/
def pyOrInt (v : Option ℤ) (d : ℤ) : ℤ :=
  match v with
  | none => d
  | some x => if x = 0 then d else x

/-- Line 84: `electrons = cfg.active_electrons or sum(problem.num_particles)`. -/
def resolveActiveElectrons (cfg : DMETConfig) (p : ElectronicProblem) : ℤ :=
  pyOrInt cfg.activeElectrons (totalParticles p)

/-- Line 85: `orbitals = cfg.active_orbitals or _infer_spatial_orbitals(problem)`. -/
def resolveActiveOrbitals (cfg : DMETConfig) (p : ElectronicProblem) : ℤ :=
  pyOrInt cfg.activeOrbitals (inferSpatialOrbitals p)

/-- The reduced problem returned by `ActiveSpaceTransformer.transform`. -/
structure ActiveProblem where
  numParticles : ℕ × ℕ
  numSpatialOrbitals : ℕ
  deriving DecidableEq

/-- Modelled from the spec: `ActiveSpaceTransformer` (external library)
"fails with `ConfigurationError` if active electron/orbital counts are
non-positive or exceed the full-space counts"; on success the reduced
problem has the requested orbital count and a present pair of active
particle counts summing to the requested electrons. -/
def activeSpaceTransform (p : ElectronicProblem) (electrons orbitals : ℤ) :
    Except Err ActiveProblem :=
  if 0 < electrons ∧ electrons ≤ (totalParticles p : ℤ) ∧
      0 < orbitals ∧ orbitals ≤ (inferSpatialOrbitals p : ℤ) then
    .ok { numParticles := (((electrons + 1) / 2).toNat, (electrons / 2).toNat),
          numSpatialOrbitals := orbitals.toNat }
  else .error .invalidActiveSpace

/-- A fermionic operator; the claims only observe its register length
(2 × active spatial orbitals, spin-up/spin-down). -/
structure FermionicOp where
  registerLength : ℕ
  deriving DecidableEq

/-- Modelled from the spec: `problem_active.hamiltonian.second_q_op()` is a
fermionic operator over 2 × the active spatial-orbital count. -/
def secondQOp (a : ActiveProblem) : FermionicOp :=
  { registerLength := 2 * a.numSpatialOrbitals }

/-- The two mapper objects `_build_mapper` can return. -/
inductive Mapper where
  | jordanWigner : Mapper
  /-- A `ParityMapper`, with `num_particles` set exactly when two-qubit
  reduction is in effect. -/
  | parity (numParticles : Option (ℕ × ℕ)) : Mapper
  deriving DecidableEq

/-- The function `_build_mapper` (lines 213-230). -/
def buildMapper (name : String) (numParticles : Option (ℕ × ℕ))
    (twoQubitReduction : Bool) : Except Err Mapper :=
  let lowered := pyToLower name
  if lowered = "parity" then
    if twoQubitReduction then
      match numParticles with
      | none => .error .twoQubitReductionRequiresParticles
      | some np => .ok (.parity (some np))
    else .ok (.parity none)
  else if lowered = "jw" ∨ lowered = "jordan-wigner" ∨ lowered = "jordan_wigner" then
    .ok .jordanWigner
  else .error (.unsupportedMapper name)

/-- A qubit operator; the claims only observe its qubit count. -/
structure QubitOp where
  numQubits : ℕ
  deriving DecidableEq

/-- Modelled from the spec: `mapper.map(op, register_length=L)` produces a
qubit operator over `L` qubits for Jordan-Wigner and unreduced parity, and
over `L - 2` qubits for parity with two-qubit reduction. -/
def mapperMap (m : Mapper) (registerLength : ℕ) : QubitOp :=
  match m with
  | .jordanWigner => { numQubits := registerLength }
  | .parity none => { numQubits := registerLength }
  | .parity (some _) => { numQubits := registerLength - 2 }

/-- Line 93: `tuple(cfg.fragment_orbitals or range(orbitals))`.  Python
truthiness: `None` and an empty sequence both select `range(orbitals)`. -/
def resolveFragmentOrbitals (cfg : DMETConfig) (orbitals : ℤ) : List ℤ :=
  let defaultRange := (List.range orbitals.toNat).map Int.ofNat
  match cfg.fragmentOrbitals with
  | none => defaultRange
  | some l => if l = [] then defaultRange else l

/-- The `DMETFragment` record. -/
structure DMETFragment where
  geometry : List Atom
  basis : String
  activeElectrons : ℤ
  activeOrbitals : ℤ
  fragmentOrbitals : List ℤ
  hartreeFockEnergy : ℚ
  fermionicHamiltonian : FermionicOp
  qubitHamiltonian : QubitOp
  deriving DecidableEq

/-- The pipeline stages that perform work, in the order
`build_fragment_from_geometry` executes them; the trace of a run records
which were invoked. -/
inductive Stage where
  | buildMolecule : Stage
  | runHartreeFock : Stage
  | driverRun : Stage
  | activeTransform : Stage
  | buildMapperStage : Stage
  | mapOperator : Stage
  deriving DecidableEq

/-- The function `build_fragment_from_geometry` (lines 63-115), returning both the list
of stages that were invoked and the result.  The external-solver results
are supplied by `env`. -/
def buildFragmentFromGeometry (env : Env) (geometry : List (String × List ℚ))
    (cfg : DMETConfig) : List Stage × Except Err DMETFragment :=
  match normaliseGeometry geometry with
  | .error e => ([], .error e)
  | .ok geom =>
      let solved : List Stage := [.buildMolecule, .runHartreeFock, .driverRun]
      let problem := env.fullProblem
      let electrons := resolveActiveElectrons cfg problem
      let orbitals := resolveActiveOrbitals cfg problem
      match activeSpaceTransform problem electrons orbitals with
      | .error e => (solved, .error e)
      | .ok active =>
          let fragOrbs := resolveFragmentOrbitals cfg orbitals
          let fermOp := secondQOp active
          match buildMapper cfg.mapper (some active.numParticles) cfg.twoQubitReduction with
          | .error e => (solved ++ [.activeTransform], .error e)
          | .ok m =>
              (solved ++ [.activeTransform, .buildMapperStage, .mapOperator],
               .ok { geometry := geom
                     basis := cfg.basis
                     activeElectrons := electrons
                     activeOrbitals := orbitals
                     fragmentOrbitals := fragOrbs
                     hartreeFockEnergy := env.hartreeFockEnergy
                     fermionicHamiltonian := fermOp
                     qubitHamiltonian := mapperMap m (2 * active.numSpatialOrbitals) })

/-- The H₂ geometry literal of `build_h2_fragment`. -/
def h2Geometry (bondLength : ℚ) : List (String × List ℚ) :=
  [("H", [0, 0, -bondLength / 2]), ("H", [0, 0, bondLength / 2])]

/-- The default-filling of `build_h2_fragment`: `replace` a field only when
it `is None`. -/
def fillH2Config (cfg : DMETConfig) : DMETConfig :=
  let c1 := if cfg.activeElectrons = none then { cfg with activeElectrons := some 2 } else cfg
  let c2 := if c1.activeOrbitals = none then { c1 with activeOrbitals := some 2 } else c1
  if c2.fragmentOrbitals = none then { c2 with fragmentOrbitals := some [0, 1] } else c2

/-- The function `build_h2_fragment` (lines 118-138). -/
def buildH2Fragment (env : Env) (bondLength : ℚ) (cfg : DMETConfig) :
    List Stage × Except Err DMETFragment :=
  buildFragmentFromGeometry env (h2Geometry bondLength) (fillH2Config cfg)

/-- Projection used to state results about the fragment-orbital list of a
pipeline outcome. -/
def resultFragmentOrbitals (r : Except Err DMETFragment) : Option (List ℤ) :=
  match r with
  | .ok f => some f.fragmentOrbitals
  | .error _ => none

/-! ### Statement-level conditions -/

/-- View of a parsed geometry as input for `_normalise_geometry` (a list of
symbol/coordinate-iterable pairs, as `build_fragment_from_geometry` passes
the parsed geometry on). -/
def liftAtoms (g : List Atom) : List (String × List ℚ) :=
  g.map (fun p => (p.1, [p.2.1, p.2.2.1, p.2.2.2]))

/-- The failure condition asserted by the spec for `_parse_xyz`, read off the
file: fewer than 2 non-empty lines, or a non-integer count line, or a data
line with fewer than 4 whitespace-separated fields, or a number of atom data
lines different from the declared count. -/
def claimedParseFailure (ls : List String) : Prop :=
  (stripLines ls).length < 2 ∨
  pyParseInt ((stripLines ls).headD "") = none ∨
  (∃ l ∈ (stripLines ls).drop 2, (splitWs l).length < 4) ∨
  (∃ n : ℤ, pyParseInt ((stripLines ls).headD "") = some n ∧
    (((stripLines ls).drop 2).length : ℤ) ≠ n)

/-- An atom data line `_parse_xyz` rejects: fewer than 4 fields, or one of
the three coordinate fields is not a valid float literal. -/
def badDataLine (l : String) : Prop :=
  (splitWs l).length < 4 ∨ ∃ t ∈ ((splitWs l).drop 1).take 3, pyParseFloat t = none

/-- The exact failure condition of `_parse_xyz`, read off the file: fewer
than 2 non-empty lines, or a non-integer count line, or a negative declared
count, or fewer data lines than declared, or a rejected data line among the
first `n` data lines. -/
def actualParseFailure (ls : List String) : Prop :=
  (stripLines ls).length < 2 ∨
  match pyParseInt ((stripLines ls).headD "") with
  | none => True
  | some n =>
      n < 0 ∨ ((stripLines ls).length : ℤ) - 2 < n ∨
      ∃ l ∈ ((stripLines ls).drop 2).take n.toNat, badDataLine l

/-! ### Concrete fixtures -/

/-- A full-space H₂/STO-3G-sized problem: 2 electrons, 2 spatial orbitals. -/
def probH2 : ElectronicProblem := { numParticles := (1, 1), alphaDimension := 2 }

/-- External-solver results for the H₂-sized problem. -/
def envH2 : Env := { hartreeFockEnergy := -1, fullProblem := probH2 }

/-- An in-memory two-atom geometry. -/
def geomH2 : List (String × List ℚ) := [("H", [0, 0, 0]), ("H", [0, 0, 1])]

/-- An XYZ file whose count line is followed directly by its atom records,
with no comment line. -/
def xyzMissingComment : List String := ["2", "H 0 0 0", "H 0 0 1"]

/-- An XYZ file declaring 1 atom but containing 2 atom data lines. -/
def xyzExtraLines : List String := ["1", "comment", "H 0 0 0", "H 0 0 1"]

/-- A well-formed two-atom XYZ file. -/
def xyzGood : List String := ["2", "hydrogen molecule", "H 0 0 0", "H 0 0 1"]

/-- A configuration selecting an encoding scheme no branch of
`_build_mapper` recognises. -/
def cfgBogusMapper : DMETConfig := { mapper := "bogus" }

/-- A configuration that supplies an explicitly empty fragment-orbital list. -/
def cfgEmptyFragment : DMETConfig := { fragmentOrbitals := some [] }

/-- A configuration that supplies an explicit active-electron count of 0. -/
def cfgZeroElectrons : DMETConfig := { activeElectrons := some 0 }

/-- A Jordan-Wigner configuration. -/
def cfgJW : DMETConfig := { mapper := "jw", twoQubitReduction := false }

/-- A configuration whose explicit active-orbital count exceeds the
full-space orbital count of `probH2`. -/
def cfgTooManyOrbitals : DMETConfig := { activeOrbitals := some 5 }

/-- The stage trace of a successful run. -/
def fullTrace : List Stage :=
  [.buildMolecule, .runHartreeFock, .driverRun, .activeTransform, .buildMapperStage, .mapOperator]

/-- A configuration that supplies an explicit active-electron count of 3. -/
def cfgThree : DMETConfig := { activeElectrons := some 3 }

/-- The fragment produced from `envH2`/`geomH2` with the default (parity,
reduced) configuration. -/
def fragH2Parity : DMETFragment :=
  { geometry := [("H", (0, 0, 0)), ("H", (0, 0, 1))]
    basis := "sto-3g"
    activeElectrons := 2
    activeOrbitals := 2
    fragmentOrbitals := [0, 1]
    hartreeFockEnergy := -1
    fermionicHamiltonian := { registerLength := 4 }
    qubitHamiltonian := { numQubits := 2 } }

/-- The fragment produced from `envH2`/`geomH2` with the Jordan-Wigner
configuration. -/
def fragH2JW : DMETFragment :=
  { fragH2Parity with qubitHamiltonian := { numQubits := 4 } }

/-! ### Helper lemmas -/

theorem exceptMapM_length {α β : Type} (f : α → Except Err β) :
    ∀ {l : List α} {bs : List β}, exceptMapM f l = .ok bs → bs.length = l.length := by
  intro l
  induction l with
  | nil =>
      intro bs h
      simp only [exceptMapM] at h
      cases h
      rfl
  | cons a as ih =>
      intro bs h
      simp only [exceptMapM] at h
      cases hfa : f a with
      | error e => rw [hfa] at h; exact Except.noConfusion h
      | ok b =>
          rw [hfa] at h
          cases hrec : exceptMapM f as with
          | error e => rw [hrec] at h; exact Except.noConfusion h
          | ok bs' =>
              rw [hrec] at h
              cases h
              simp [ih hrec]

theorem exceptMapM_ok_of_forall {α β : Type} (f : α → Except Err β) :
    ∀ (l : List α), (∀ a ∈ l, ∃ b, f a = .ok b) →
      ∃ bs, exceptMapM f l = .ok bs := by
  intro l
  induction l with
  | nil => intro _; exact ⟨[], rfl⟩
  | cons a as ih =>
      intro h
      obtain ⟨b, hb⟩ := h a (List.mem_cons_self a as)
      obtain ⟨bs, hbs⟩ := ih (fun x hx => h x (List.mem_cons_of_mem a hx))
      refine ⟨b :: bs, ?_⟩
      simp only [exceptMapM, hb, hbs]

theorem exceptMapM_error_of_mem {α β : Type} (f : α → Except Err β) :
    ∀ {l : List α} {a : α} {e : Err}, a ∈ l → f a = .error e →
      ∃ e', exceptMapM f l = .error e' := by
  intro l
  induction l with
  | nil => intro a e ha _; cases ha
  | cons x xs ih =>
      intro a e ha he
      rcases List.mem_cons.mp ha with h | h
      · subst h
        refine ⟨e, ?_⟩
        simp only [exceptMapM, he]
      · cases hfx : f x with
        | error e' => exact ⟨e', by simp only [exceptMapM, hfx]⟩
        | ok b =>
            obtain ⟨e', he'⟩ := ih h he
            exact ⟨e', by simp only [exceptMapM, hfx, he']⟩

theorem exceptMapM_mem_error {α β : Type} (f : α → Except Err β) :
    ∀ {l : List α} {e : Err}, exceptMapM f l = .error e →
      ∃ a ∈ l, ∃ e', f a = .error e' := by
  intro l
  induction l with
  | nil => intro e h; simp only [exceptMapM] at h; exact Except.noConfusion h
  | cons x xs ih =>
      intro e h
      simp only [exceptMapM] at h
      cases hfx : f x with
      | error e' => exact ⟨x, List.mem_cons_self x xs, e', hfx⟩
      | ok b =>
          rw [hfx] at h
          cases hrec : exceptMapM f xs with
          | error e' =>
              obtain ⟨a, ha, he'⟩ := ih hrec
              exact ⟨a, List.mem_cons_of_mem x ha, he'⟩
          | ok bs => rw [hrec] at h; exact Except.noConfusion h

theorem normaliseGeometry_liftAtoms (g : List Atom) :
    normaliseGeometry (liftAtoms g) = .ok g := by
  induction g with
  | nil => rfl
  | cons a as ih =>
      obtain ⟨s, x, y, z⟩ := a
      unfold normaliseGeometry at ih ⊢
      simp only [liftAtoms, List.map_cons] at ih ⊢
      have hhead : Except.map (fun c => ((s : String), c)) (normaliseCoord s [x, y, z]) =
          Except.ok (s, (x, y, z)) := rfl
      simp only [exceptMapM, hhead, ih]

theorem pySlice_two_nonneg {α : Type} (l : List α) (n : ℤ) (h2 : 2 ≤ l.length)
    (hn : 0 ≤ n) : pySlice l 2 (2 + n) = (l.drop 2).take n.toNat := by
  simp only [pySlice]
  have hnorm2 : (if (2 : ℤ) < 0 then ((l.length : ℤ) + 2).toNat else min (2 : ℤ).toNat l.length) = 2 := by
    rw [if_neg (by omega)]
    omega
  have hnormj : (if (2 + n : ℤ) < 0 then ((l.length : ℤ) + (2 + n)).toNat
      else min (2 + n : ℤ).toNat l.length) = min (2 + n.toNat) l.length := by
    rw [if_neg (by omega)]
    congr 1
    omega
  rw [hnorm2, hnormj]
  rw [List.take_eq_take]
  simp only [List.length_drop]
  omega

theorem parseAtomLine_ok_of_not_bad (l : String) (h : ¬ badDataLine l) :
    ∃ a, parseAtomLine l = .ok a := by
  simp only [badDataLine, not_or, not_lt, not_exists] at h
  obtain ⟨hlen, hfloat⟩ := h
  unfold parseAtomLine
  cases hsp : splitWs l with
  | nil => rw [hsp] at hlen; simp at hlen
  | cons sym rest =>
      cases rest with
      | nil => rw [hsp] at hlen; simp at hlen
      | cons a rest2 =>
          cases rest2 with
          | nil => rw [hsp] at hlen; simp at hlen
          | cons b rest3 =>
              cases rest3 with
              | nil => rw [hsp] at hlen; simp at hlen
              | cons c rest4 =>
                  rw [hsp] at hfloat
                  simp only [List.drop, List.take] at hfloat
                  have ha : pyParseFloat a ≠ none := fun hh => hfloat a ⟨by simp, hh⟩
                  have hb : pyParseFloat b ≠ none := fun hh => hfloat b ⟨by simp, hh⟩
                  have hc : pyParseFloat c ≠ none := fun hh => hfloat c ⟨by simp, hh⟩
                  cases hpa : pyParseFloat a with
                  | none => exact absurd hpa ha
                  | some x =>
                      cases hpb : pyParseFloat b with
                      | none => exact absurd hpb hb
                      | some y =>
                          cases hpc : pyParseFloat c with
                          | none => exact absurd hpc hc
                          | some z =>
                              exact ⟨(sym, (x, y, z)), by simp only [hpa, hpb, hpc]⟩

theorem parseAtomLine_bad_of_error (l : String) (e : Err)
    (h : parseAtomLine l = .error e) : badDataLine l := by
  unfold parseAtomLine at h
  by_contra hbad
  obtain ⟨a, ha⟩ := parseAtomLine_ok_of_not_bad l hbad
  unfold parseAtomLine at ha
  rw [ha] at h
  exact Except.noConfusion h

theorem activeSpaceTransform_ok_elim {p : ElectronicProblem} {e o : ℤ} {a : ActiveProblem}
    (h : activeSpaceTransform p e o = .ok a) :
    0 < e ∧ e ≤ (totalParticles p : ℤ) ∧ 0 < o ∧ o ≤ (inferSpatialOrbitals p : ℤ) ∧
      a.numSpatialOrbitals = o.toNat ∧
      a.numParticles = (((e + 1) / 2).toNat, (e / 2).toNat) := by
  unfold activeSpaceTransform at h
  split at h
  · next hc =>
      cases h
      exact ⟨hc.1, hc.2.1, hc.2.2.1, hc.2.2.2, rfl, rfl⟩
  · exact Except.noConfusion h

theorem activeSpaceTransform_error_of_invalid {p : ElectronicProblem} {e o : ℤ}
    (h : e ≤ 0 ∨ (totalParticles p : ℤ) < e ∨ o ≤ 0 ∨ (inferSpatialOrbitals p : ℤ) < o) :
    activeSpaceTransform p e o = .error .invalidActiveSpace := by
  unfold activeSpaceTransform
  rw [if_neg]
  intro hc
  rcases h with h | h | h | h <;> omega

theorem buildMapper_jw {name : String} (np : Option (ℕ × ℕ)) (red : Bool)
    (h : pyToLower name = "jw" ∨ pyToLower name = "jordan-wigner" ∨ pyToLower name = "jordan_wigner") :
    buildMapper name np red = .ok .jordanWigner := by
  unfold buildMapper
  have hne : ¬ pyToLower name = "parity" := by
    rcases h with h | h | h <;> rw [h] <;> decide
  rw [if_neg hne, if_pos h]

theorem buildMapper_parity_reduced {name : String} (np : ℕ × ℕ)
    (h : pyToLower name = "parity") :
    buildMapper name (some np) true = .ok (.parity (some np)) := by
  unfold buildMapper
  rw [if_pos h]
  rfl

theorem buildFragment_ok_elim {env : Env} {g : List (String × List ℚ)} {cfg : DMETConfig}
    {t : List Stage} {frag : DMETFragment}
    (h : buildFragmentFromGeometry env g cfg = (t, .ok frag)) :
    ∃ geom active m,
      normaliseGeometry g = .ok geom ∧
      activeSpaceTransform env.fullProblem (resolveActiveElectrons cfg env.fullProblem)
        (resolveActiveOrbitals cfg env.fullProblem) = .ok active ∧
      buildMapper cfg.mapper (some active.numParticles) cfg.twoQubitReduction = .ok m ∧
      t = fullTrace ∧
      frag = { geometry := geom
               basis := cfg.basis
               activeElectrons := resolveActiveElectrons cfg env.fullProblem
               activeOrbitals := resolveActiveOrbitals cfg env.fullProblem
               fragmentOrbitals := resolveFragmentOrbitals cfg
                 (resolveActiveOrbitals cfg env.fullProblem)
               hartreeFockEnergy := env.hartreeFockEnergy
               fermionicHamiltonian := secondQOp active
               qubitHamiltonian := mapperMap m (2 * active.numSpatialOrbitals) } := by
  unfold buildFragmentFromGeometry at h
  cases hn : normaliseGeometry g with
  | error e => rw [hn] at h; simp at h
  | ok geom =>
      rw [hn] at h
      simp only at h
      cases ht : activeSpaceTransform env.fullProblem
          (resolveActiveElectrons cfg env.fullProblem)
          (resolveActiveOrbitals cfg env.fullProblem) with
      | error e =>
          rw [ht] at h
          simp at h
      | ok active =>
          rw [ht] at h
          simp only at h
          cases hm : buildMapper cfg.mapper (some active.numParticles) cfg.twoQubitReduction with
          | error e =>
              rw [hm] at h
              simp at h
          | ok m =>
              rw [hm] at h
              simp only [Prod.mk.injEq] at h
              obtain ⟨hT, hF⟩ := h
              cases hF
              exact ⟨geom, active, m, rfl, rfl, hm, hT.symm, rfl⟩

theorem buildFragment_badMapper {env : Env} {g : List (String × List ℚ)} {cfg : DMETConfig}
    {geom : List Atom} {active : ActiveProblem}
    (hn : normaliseGeometry g = .ok geom)
    (ht : activeSpaceTransform env.fullProblem (resolveActiveElectrons cfg env.fullProblem)
      (resolveActiveOrbitals cfg env.fullProblem) = .ok active)
    {e : Err}
    (hm : buildMapper cfg.mapper (some active.numParticles) cfg.twoQubitReduction = .error e) :
    buildFragmentFromGeometry env g cfg =
      ([.buildMolecule, .runHartreeFock, .driverRun, .activeTransform], .error e) := by
  unfold buildFragmentFromGeometry
  rw [hn]
  simp only
  rw [ht]
  simp only
  rw [hm]
  rfl

theorem buildFragment_badActiveSpace {env : Env} {g : List (String × List ℚ)} {cfg : DMETConfig}
    {geom : List Atom}
    (hn : normaliseGeometry g = .ok geom)
    {e : Err}
    (ht : activeSpaceTransform env.fullProblem (resolveActiveElectrons cfg env.fullProblem)
      (resolveActiveOrbitals cfg env.fullProblem) = .error e) :
    buildFragmentFromGeometry env g cfg =
      ([.buildMolecule, .runHartreeFock, .driverRun], .error e) := by
  unfold buildFragmentFromGeometry
  rw [hn]
  simp only
  rw [ht]

/-! ### Claims -/

/-- C10: geometry-file parsing discards blank lines and then unconditionally
treats the second remaining line as the comment line, so a file whose
atom-count line is followed immediately by its `n ≥ 1` atom records (all
well-formed, no comment line in between) has its first atom record consumed
as the comment — the slice of atom lines is `recs.drop 1` — and parsing
fails with an atom-count mismatch (`n` declared, `n - 1` parsed) instead of
returning the `n` atoms. -/
theorem missing_comment_consumes_first_record
    (countStr : String) (recs : List String) (n : ℤ)
    (hstrip : stripLines (countStr :: recs) = countStr :: recs)
    (hn : pyParseInt countStr = some n) (h1 : 1 ≤ n)
    (hlen : (recs.length : ℤ) = n)
    (hrecs : ∀ r ∈ recs, ∃ a, parseAtomLine r = Except.ok a) :
    pySlice (countStr :: recs) 2 (2 + n) = recs.drop 1 ∧
    parseXyz (countStr :: recs) = .error (.xyzCountMismatch n (n.toNat - 1)) := by
  have hrl : recs.length = n.toNat := by omega
  have hlen2 : ¬ (countStr :: recs).length < 2 := by
    simp only [List.length_cons]
    omega
  have hslice : pySlice (countStr :: recs) 2 (2 + n) = recs.drop 1 := by
    rw [pySlice_two_nonneg _ n (by simp only [List.length_cons]; omega) (by omega)]
    have hd : (countStr :: recs).drop 2 = recs.drop 1 := rfl
    rw [hd]
    apply List.take_of_length_le
    simp only [List.length_drop]
    omega
  refine ⟨hslice, ?_⟩
  obtain ⟨bs, hbs⟩ := exceptMapM_ok_of_forall parseAtomLine (recs.drop 1)
    (fun r hr => hrecs r (List.mem_of_mem_drop hr))
  have hbl : bs.length = n.toNat - 1 := by
    rw [exceptMapM_length parseAtomLine hbs]
    simp only [List.length_drop]
    omega
  simp only [parseXyz, hstrip]
  rw [if_neg hlen2]
  simp only [List.headD, hn, hslice, hbs]
  rw [if_pos (by omega)]
  rw [hbl]

/-- Closed witness for `missing_comment_consumes_first_record`: the file
`["2", "H 0 0 0", "H 0 0 1"]` declares 2 atoms, has no comment line, and
parsing fails with a count mismatch of 2 declared versus 1 parsed. -/
theorem missing_comment_consumes_first_record_witness :
    parseXyz xyzMissingComment = .error (.xyzCountMismatch 2 1) := by
  have h := missing_comment_consumes_first_record "2" ["H 0 0 0", "H 0 0 1"] 2
    (by decide) (by decide) (by decide) (by decide)
    (by
      intro r hr
      simp only [List.mem_cons, List.not_mem_nil, or_false] at hr
      rcases hr with h | h
      · exact ⟨("H", (0, 0, 0)), by rw [h]; decide⟩
      · exact ⟨("H", (0, 0, 1)), by rw [h]; decide⟩)
  exact h.2

/-- C7: whenever `_parse_xyz` succeeds on a file with result `g`, the
declared count equals `g.length`, the entries of `g` are exactly the
in-order per-line parses (symbol, three float coordinates) of the first
`g.length` data lines of the file, and `_normalise_geometry` reproduces `g`
unchanged (count, order and values preserved). -/
theorem parse_normalize_roundtrip (ls : List String) (g : List Atom)
    (h : parseXyz ls = .ok g) :
    normaliseGeometry (liftAtoms g) = .ok g ∧
    pyParseInt ((stripLines ls).headD "") = some (g.length : ℤ) ∧
    exceptMapM parseAtomLine (((stripLines ls).drop 2).take g.length) = .ok g := by
  refine ⟨normaliseGeometry_liftAtoms g, ?_⟩
  simp only [parseXyz] at h
  split at h
  · exact Except.noConfusion h
  · next hlen =>
      cases hint : pyParseInt ((stripLines ls).headD "") with
      | none => rw [hint] at h; exact Except.noConfusion h
      | some n =>
          rw [hint] at h
          simp only at h
          cases hmap : exceptMapM parseAtomLine (pySlice (stripLines ls) 2 (2 + n)) with
          | error e => rw [hmap] at h; exact Except.noConfusion h
          | ok bs =>
              rw [hmap] at h
              simp only at h
              split at h
              · exact Except.noConfusion h
              · next hne =>
                  cases h
                  have hg : (g.length : ℤ) = n := by omega
                  have hn0 : 0 ≤ n := by omega
                  refine ⟨by rw [hg], ?_⟩
                  rw [← hmap]
                  congr 1
                  rw [pySlice_two_nonneg _ n (by omega) hn0]
                  congr 1
                  omega

/-- Closed witness for `parse_normalize_roundtrip` on a concrete well-formed
two-atom file. -/
theorem parse_normalize_roundtrip_witness :
    parseXyz xyzGood = .ok [("H", (0, 0, 0)), ("H", (0, 0, 1))] ∧
    normaliseGeometry (liftAtoms [("H", (0, 0, 0)), ("H", (0, 0, 1))]) =
      .ok [("H", (0, 0, 0)), ("H", (0, 0, 1))] ∧
    pyParseInt ((stripLines xyzGood).headD "") = some 2 ∧
    exceptMapM parseAtomLine (((stripLines xyzGood).drop 2).take 2) =
      .ok [("H", (0, 0, 0)), ("H", (0, 0, 1))] := by
  have hp : parseXyz xyzGood = .ok [("H", (0, 0, 0)), ("H", (0, 0, 1))] := by decide
  have hthm := parse_normalize_roundtrip xyzGood _ hp
  exact ⟨hp, hthm.1, hthm.2.1, hthm.2.2⟩

/-- C1: on every successful assembly, the fermionic Hamiltonian spans
2n spin-orbitals for n the active spatial-orbital count (which is at least
1), a Jordan-Wigner encoding yields a qubit operator over exactly 2n
qubits, and a parity encoding with two-qubit reduction enabled yields a
qubit operator over exactly 2n-2 qubits. -/
theorem encoding_qubit_counts (env : Env) (g : List (String × List ℚ))
    (cfg : DMETConfig) (t : List Stage) (frag : DMETFragment)
    (h : buildFragmentFromGeometry env g cfg = (t, .ok frag)) :
    1 ≤ frag.activeOrbitals ∧
    frag.fermionicHamiltonian.registerLength = 2 * frag.activeOrbitals.toNat ∧
    ((pyToLower cfg.mapper = "jw" ∨ pyToLower cfg.mapper = "jordan-wigner" ∨
        pyToLower cfg.mapper = "jordan_wigner") →
      frag.qubitHamiltonian.numQubits = 2 * frag.activeOrbitals.toNat) ∧
    (pyToLower cfg.mapper = "parity" ∧ cfg.twoQubitReduction = true →
      frag.qubitHamiltonian.numQubits = 2 * frag.activeOrbitals.toNat - 2 ∧
      2 ≤ 2 * frag.activeOrbitals.toNat) := by
  obtain ⟨geom, active, m, hn, ht, hm, hT, hF⟩ := buildFragment_ok_elim h
  obtain ⟨he1, he2, ho1, ho2, hdim, hnp⟩ := activeSpaceTransform_ok_elim ht
  subst hF
  dsimp only
  refine ⟨ho1, ?_, ?_, ?_⟩
  · unfold secondQOp
    rw [hdim]
  · intro hjw
    have hres := buildMapper_jw (some active.numParticles) cfg.twoQubitReduction hjw
    rw [hm] at hres
    cases hres
    unfold mapperMap
    rw [hdim]
  · rintro ⟨hp, hr⟩
    have hres := buildMapper_parity_reduced active.numParticles hp
    rw [hr] at hm
    rw [hm] at hres
    cases hres
    constructor
    · unfold mapperMap
      rw [hdim]
    · omega

/-- Closed witness for `encoding_qubit_counts`: the H₂-sized problem with
the default parity-reduced configuration gives a 2-qubit operator, and with
Jordan-Wigner a 4-qubit operator. -/
theorem encoding_qubit_counts_witness :
    buildFragmentFromGeometry envH2 geomH2 {} = (fullTrace, .ok fragH2Parity) ∧
    fragH2Parity.qubitHamiltonian.numQubits = 2 * fragH2Parity.activeOrbitals.toNat - 2 ∧
    buildFragmentFromGeometry envH2 geomH2 cfgJW = (fullTrace, .ok fragH2JW) ∧
    fragH2JW.qubitHamiltonian.numQubits = 2 * fragH2JW.activeOrbitals.toNat := by
  have h1 : buildFragmentFromGeometry envH2 geomH2 {} = (fullTrace, .ok fragH2Parity) := by
    decide
  have h2 : buildFragmentFromGeometry envH2 geomH2 cfgJW = (fullTrace, .ok fragH2JW) := by
    decide
  refine ⟨h1, ((encoding_qubit_counts envH2 geomH2 {} fullTrace fragH2Parity h1).2.2.2
    ⟨by decide, rfl⟩).1, h2, ?_⟩
  exact (encoding_qubit_counts envH2 geomH2 cfgJW fullTrace fragH2JW h2).2.2.1
    (Or.inl (by decide))

/-- C2: active-space selection rejects resolved electron or orbital counts
that are non-positive or exceed the full-space counts, with the
configuration-error kind; in particular a configuration whose explicit
`active_orbitals` exceeds the full-space orbital count makes the whole
assembly fail with that error. -/
theorem active_space_rejects_out_of_bounds :
    (∀ (p : ElectronicProblem) (e o : ℤ),
        (e ≤ 0 ∨ (totalParticles p : ℤ) < e ∨ o ≤ 0 ∨ (inferSpatialOrbitals p : ℤ) < o) →
        activeSpaceTransform p e o = .error .invalidActiveSpace ∧
        Err.invalidActiveSpace.isConfigurationError = true) ∧
    (∀ (env : Env) (g : List (String × List ℚ)) (cfg : DMETConfig)
        (geom : List Atom) (k : ℤ),
        normaliseGeometry g = .ok geom → cfg.activeOrbitals = some k →
        (inferSpatialOrbitals env.fullProblem : ℤ) < k →
        (buildFragmentFromGeometry env g cfg).2 = .error .invalidActiveSpace) := by
  constructor
  · intro p e o h
    exact ⟨activeSpaceTransform_error_of_invalid h, rfl⟩
  · intro env g cfg geom k hg hk hlt
    have hko : resolveActiveOrbitals cfg env.fullProblem = k := by
      unfold resolveActiveOrbitals pyOrInt
      rw [hk]
      have hk0 : k ≠ 0 := by omega
      simp [hk0]
    have herr : activeSpaceTransform env.fullProblem
        (resolveActiveElectrons cfg env.fullProblem)
        (resolveActiveOrbitals cfg env.fullProblem) = .error .invalidActiveSpace :=
      activeSpaceTransform_error_of_invalid
        (Or.inr (Or.inr (Or.inr (by rw [hko]; exact hlt))))
    rw [buildFragment_badActiveSpace hg herr]

/-- Closed witness for `active_space_rejects_out_of_bounds`: a zero electron
count is rejected, and a configuration asking for 5 active orbitals on the
2-orbital full problem aborts the assembly. -/
theorem active_space_rejects_out_of_bounds_witness :
    activeSpaceTransform probH2 0 2 = .error .invalidActiveSpace ∧
    (buildFragmentFromGeometry envH2 geomH2 cfgTooManyOrbitals).2 =
      .error .invalidActiveSpace := by
  refine ⟨(active_space_rejects_out_of_bounds.1 probH2 0 2 (Or.inl (by decide))).1, ?_⟩
  exact active_space_rejects_out_of_bounds.2 envH2 geomH2 cfgTooManyOrbitals
    [("H", (0, 0, 0)), ("H", (0, 0, 1))] 5 (by decide) rfl (by decide)

/-- C3 counterexample: the claim says an explicitly supplied active-electron
count is always used, but the source resolves with Python `or`, which treats
a supplied 0 as unset: with `active_electrons = 0` the resolved count is the
full problem's total particle count 2, not 0. -/
theorem resolve_explicit_zero_counterexample :
    cfgZeroElectrons.activeElectrons = some 0 ∧
    resolveActiveElectrons cfgZeroElectrons probH2 = 2 ∧ (2 : ℤ) ≠ 0 := by decide

/-- C3 amended: the active electron (orbital) count resolves to the explicit
configuration value when a non-zero one is supplied; when the field is unset
or supplied as the falsy value 0 it resolves to the total particle count
(alpha-integral dimension) of the full problem. -/
theorem resolve_active_counts_amended (cfg : DMETConfig) (p : ElectronicProblem) :
    (∀ e : ℤ, cfg.activeElectrons = some e → e ≠ 0 → resolveActiveElectrons cfg p = e) ∧
    (cfg.activeElectrons = none ∨ cfg.activeElectrons = some 0 →
      resolveActiveElectrons cfg p = (totalParticles p : ℤ)) ∧
    (∀ o : ℤ, cfg.activeOrbitals = some o → o ≠ 0 → resolveActiveOrbitals cfg p = o) ∧
    (cfg.activeOrbitals = none ∨ cfg.activeOrbitals = some 0 →
      resolveActiveOrbitals cfg p = (inferSpatialOrbitals p : ℤ)) := by
  refine ⟨?_, ?_, ?_, ?_⟩
  · intro e he hne
    unfold resolveActiveElectrons pyOrInt
    rw [he]
    simp [hne]
  · rintro (hc | hc) <;> (unfold resolveActiveElectrons pyOrInt; rw [hc]; try simp)
  · intro o ho hne
    unfold resolveActiveOrbitals pyOrInt
    rw [ho]
    simp [hne]
  · rintro (hc | hc) <;> (unfold resolveActiveOrbitals pyOrInt; rw [hc]; try simp)

/-- Closed witness for `resolve_active_counts_amended`: an explicit non-zero
electron count of 3 is used as supplied; the unset orbital count falls back
to the alpha-integral dimension 2. -/
theorem resolve_active_counts_amended_witness :
    resolveActiveElectrons cfgThree probH2 = 3 ∧
    resolveActiveOrbitals cfgThree probH2 = 2 := by
  have h := resolve_active_counts_amended cfgThree probH2
  exact ⟨h.1 3 rfl (by decide), h.2.2.2 (Or.inl rfl)⟩

/-- C5 counterexample: parity encoding with reduction and no particle counts
does fail with the configuration error, but the message the source attaches
(`dmet_pyscf.py` line 223) is "Two-qubit reduction requires particle
counts." — not the lower-case, period-free string the claim quotes. -/
theorem reduction_message_counterexample :
    buildMapper "parity" none true = .error .twoQubitReductionRequiresParticles ∧
    twoQubitReductionMessage ≠ "two-qubit reduction requires particle counts" := by decide

/-- C5 amended: parity encoding with two-qubit reduction requested and no
particle counts available fails with a ConfigurationError carrying the
message "Two-qubit reduction requires particle counts."; with particle
counts available the same call succeeds and constructs the reduced parity
encoder. -/
theorem reduction_requires_particles_amended :
    buildMapper "parity" none true = .error .twoQubitReductionRequiresParticles ∧
    Err.twoQubitReductionRequiresParticles.isConfigurationError = true ∧
    twoQubitReductionMessage = "Two-qubit reduction requires particle counts." ∧
    ∀ np : ℕ × ℕ, buildMapper "parity" (some np) true = .ok (.parity (some np)) := by
  refine ⟨by decide, rfl, rfl, ?_⟩
  intro np
  exact buildMapper_parity_reduced np (by decide)

/-- Closed witness for `reduction_requires_particles_amended` at the
particle counts (1, 1). -/
theorem reduction_requires_particles_amended_witness :
    buildMapper "parity" (some (1, 1)) true = .ok (.parity (some (1, 1))) :=
  reduction_requires_particles_amended.2.2.2 (1, 1)

/-- C6 counterexample: with an unknown encoding scheme ("bogus"), assembly
does fail with a ConfigurationError, but only after the mean-field solve
and the full-problem construction stages have run — contradicting the
claim that they are never invoked for such a configuration. -/
theorem config_error_after_solver_counterexample :
    (buildFragmentFromGeometry envH2 geomH2 cfgBogusMapper).2 =
      .error (.unsupportedMapper "bogus") ∧
    Err.isConfigurationError (.unsupportedMapper "bogus") = true ∧
    Stage.runHartreeFock ∈ (buildFragmentFromGeometry envH2 geomH2 cfgBogusMapper).1 ∧
    Stage.driverRun ∈ (buildFragmentFromGeometry envH2 geomH2 cfgBogusMapper).1 := by
  refine ⟨by decide, rfl, ?_, ?_⟩ <;> decide

/-- C6 amended: an unknown encoding-scheme name always aborts assembly with
the ConfigurationError naming it and no fragment is returned, but the error
is raised only after the mean-field solve and the full-problem construction
have been invoked (they appear in the stage trace). -/
theorem unknown_mapper_reported_after_solver
    (env : Env) (g : List (String × List ℚ)) (cfg : DMETConfig)
    (geom : List Atom) (active : ActiveProblem)
    (hn : normaliseGeometry g = .ok geom)
    (ht : activeSpaceTransform env.fullProblem (resolveActiveElectrons cfg env.fullProblem)
      (resolveActiveOrbitals cfg env.fullProblem) = .ok active)
    (hm : pyToLower cfg.mapper ≠ "parity" ∧ pyToLower cfg.mapper ≠ "jw" ∧
      pyToLower cfg.mapper ≠ "jordan-wigner" ∧ pyToLower cfg.mapper ≠ "jordan_wigner") :
    (buildFragmentFromGeometry env g cfg).2 = .error (.unsupportedMapper cfg.mapper) ∧
    Stage.runHartreeFock ∈ (buildFragmentFromGeometry env g cfg).1 ∧
    Stage.driverRun ∈ (buildFragmentFromGeometry env g cfg).1 := by
  have hbm : buildMapper cfg.mapper (some active.numParticles) cfg.twoQubitReduction =
      .error (.unsupportedMapper cfg.mapper) := by
    unfold buildMapper
    rw [if_neg hm.1]
    rw [if_neg ?_]
    rintro (hc | hc | hc)
    · exact hm.2.1 hc
    · exact hm.2.2.1 hc
    · exact hm.2.2.2 hc
  rw [buildFragment_badMapper hn ht hbm]
  exact ⟨rfl, by simp, by simp⟩

/-- Closed witness for `unknown_mapper_reported_after_solver` on the
"bogus" configuration. -/
theorem unknown_mapper_reported_after_solver_witness :
    (buildFragmentFromGeometry envH2 geomH2 cfgBogusMapper).2 =
      .error (.unsupportedMapper "bogus") ∧
    Stage.runHartreeFock ∈ (buildFragmentFromGeometry envH2 geomH2 cfgBogusMapper).1 := by
  have h := unknown_mapper_reported_after_solver envH2 geomH2 cfgBogusMapper
    [("H", (0, 0, 0)), ("H", (0, 0, 1))]
    { numParticles := (1, 1), numSpatialOrbitals := 2 }
    (by decide) (by decide) ⟨by decide, by decide, by decide, by decide⟩
  exact ⟨h.1, h.2.1⟩

/-- C8: `build_h2_fragment` delegates to the general assembler on the
two-hydrogen geometry at z = ∓ bond/2, and fills `active_electrons := 2`,
`active_orbitals := 2`, `fragment_orbitals := (0, 1)` only for fields the
caller left unset — explicitly set values and all other fields are never
overwritten. -/
theorem build_h2_fills_only_unset (cfg : DMETConfig) (b : ℚ) (env : Env) :
    buildH2Fragment env b cfg =
      buildFragmentFromGeometry env (h2Geometry b) (fillH2Config cfg) ∧
    h2Geometry b = [("H", [0, 0, -b / 2]), ("H", [0, 0, b / 2])] ∧
    (cfg.activeElectrons = none → (fillH2Config cfg).activeElectrons = some 2) ∧
    (∀ v, cfg.activeElectrons = some v → (fillH2Config cfg).activeElectrons = some v) ∧
    (cfg.activeOrbitals = none → (fillH2Config cfg).activeOrbitals = some 2) ∧
    (∀ v, cfg.activeOrbitals = some v → (fillH2Config cfg).activeOrbitals = some v) ∧
    (cfg.fragmentOrbitals = none → (fillH2Config cfg).fragmentOrbitals = some [0, 1]) ∧
    (∀ v, cfg.fragmentOrbitals = some v → (fillH2Config cfg).fragmentOrbitals = some v) ∧
    (fillH2Config cfg).basis = cfg.basis ∧
    (fillH2Config cfg).charge = cfg.charge ∧
    (fillH2Config cfg).spin = cfg.spin ∧
    (fillH2Config cfg).distanceUnit = cfg.distanceUnit ∧
    (fillH2Config cfg).mapper = cfg.mapper ∧
    (fillH2Config cfg).twoQubitReduction = cfg.twoQubitReduction := by
  refine ⟨rfl, rfl, ?_⟩
  simp only [fillH2Config]
  split_ifs <;> simp_all

/-- Closed witness for `build_h2_fills_only_unset`: a caller-set
`active_electrons = 0` is kept (not overwritten), while the unset orbital
and fragment-orbital fields receive their defaults. -/
theorem build_h2_fills_only_unset_witness :
    (fillH2Config cfgZeroElectrons).activeElectrons = some 0 ∧
    (fillH2Config cfgZeroElectrons).activeOrbitals = some 2 ∧
    (fillH2Config cfgZeroElectrons).fragmentOrbitals = some [0, 1] := by
  have h := build_h2_fills_only_unset cfgZeroElectrons 1 envH2
  exact ⟨h.2.2.2.1 0 rfl, h.2.2.2.2.1 rfl, h.2.2.2.2.2.2.1 rfl⟩

/-- C9 counterexample: the claim says an explicitly supplied
fragment-orbital list is carried through unchanged, but the source resolves
it with Python `or`, which treats a supplied empty list as unset: a
configuration supplying `[]` yields the default `[0, 1]`. -/
theorem fragment_orbitals_empty_counterexample :
    cfgEmptyFragment.fragmentOrbitals = some [] ∧
    resultFragmentOrbitals (buildFragmentFromGeometry envH2 geomH2 cfgEmptyFragment).2 =
      some [0, 1] ∧
    some ([] : List ℤ) ≠ some [(0 : ℤ), 1] := by decide

/-- C9 amended: on every assembled fragment the fragment-orbital list equals
the explicitly supplied configuration list when a non-empty one is supplied;
when the configuration leaves it unset or supplies an empty sequence it
defaults to `range(active_orbitals)`. -/
theorem fragment_orbitals_resolution_amended
    (env : Env) (g : List (String × List ℚ)) (cfg : DMETConfig)
    (t : List Stage) (frag : DMETFragment)
    (h : buildFragmentFromGeometry env g cfg = (t, .ok frag)) :
    frag.fragmentOrbitals = resolveFragmentOrbitals cfg frag.activeOrbitals ∧
    (cfg.fragmentOrbitals = none ∨ cfg.fragmentOrbitals = some [] →
      frag.fragmentOrbitals = (List.range frag.activeOrbitals.toNat).map Int.ofNat) ∧
    (∀ l, cfg.fragmentOrbitals = some l → l ≠ [] → frag.fragmentOrbitals = l) := by
  obtain ⟨geom, active, m, hn, ht, hm, hT, hF⟩ := buildFragment_ok_elim h
  subst hF
  dsimp only
  refine ⟨rfl, ?_, ?_⟩
  · intro hc
    unfold resolveFragmentOrbitals
    rcases hc with hc | hc <;> rw [hc]
    simp
  · intro l hl hne
    unfold resolveFragmentOrbitals
    rw [hl]
    simp [hne]

/-- Closed witness for `fragment_orbitals_resolution_amended`: the default
configuration leaves the field unset and the assembled fragment carries
`range(2) = [0, 1]`. -/
theorem fragment_orbitals_resolution_amended_witness :
    fragH2Parity.fragmentOrbitals =
      (List.range fragH2Parity.activeOrbitals.toNat).map Int.ofNat := by
  have h1 : buildFragmentFromGeometry envH2 geomH2 {} = (fullTrace, .ok fragH2Parity) := by
    decide
  exact (fragment_orbitals_resolution_amended envH2 geomH2 {} fullTrace fragH2Parity h1).2.1
    (Or.inl rfl)

theorem parseAtomLine_not_bad_of_ok (l : String) (a : Atom)
    (h : parseAtomLine l = .ok a) : ¬ badDataLine l := by
  unfold parseAtomLine at h
  split at h
  · next sym f1 f2 f3 tail hsp =>
      split at h
      · next x y z hx hy hz =>
          intro hbad
          rcases hbad with hlen | ⟨t, ht, hnone⟩
          · rw [hsp] at hlen
            simp only [List.length_cons] at hlen
            omega
          · rw [hsp] at ht
            simp only [List.drop, List.take, List.mem_cons, List.not_mem_nil,
              or_false] at ht
            rcases ht with rfl | rfl | rfl
            · rw [hx] at hnone; exact Option.noConfusion hnone
            · rw [hy] at hnone; exact Option.noConfusion hnone
            · rw [hz] at hnone; exact Option.noConfusion hnone
      · exact Except.noConfusion h
  · exact Except.noConfusion h

theorem parseAtomLine_error_of_bad (l : String) (h : badDataLine l) :
    ∃ e, parseAtomLine l = .error e := by
  cases hres : parseAtomLine l with
  | error e => exact ⟨e, rfl⟩
  | ok a => exact absurd h (parseAtomLine_not_bad_of_ok l a hres)

/-- C4 counterexample: the claim's failure condition holds of a file
declaring 1 atom but containing 2 atom data lines (the data-line count
differs from the declared count), yet `_parse_xyz` succeeds on it,
silently ignoring the extra line — so parsing does not fail exactly under
the claimed condition. -/
theorem parse_failure_condition_counterexample :
    claimedParseFailure xyzExtraLines ∧
    parseXyz xyzExtraLines = .ok [("H", (0, 0, 0))] := by
  constructor
  · exact Or.inr (Or.inr (Or.inr ⟨1, by decide, by decide⟩))
  · decide

/-- C4 amended: `_parse_xyz` fails exactly when the file has fewer than 2
non-empty lines, or its count line is not an integer, or the declared count
`n` is negative, or the file contains fewer atom data lines than declared,
or one of the first `n` data lines has fewer than 4 fields or a coordinate
field that is not a float literal.  A file with more data lines than
declared parses successfully from the first `n` of them. -/
theorem parse_failure_condition_amended (ls : List String) :
    (∃ e, parseXyz ls = .error e) ↔ actualParseFailure ls := by
  simp only [parseXyz, actualParseFailure]
  by_cases h2 : (stripLines ls).length < 2
  · simp only [if_pos h2]
    exact ⟨fun _ => Or.inl h2, fun _ => ⟨.xyzTooShort, rfl⟩⟩
  · simp only [if_neg h2]
    have hlen2 : 2 ≤ (stripLines ls).length := by omega
    split
    · exact ⟨fun _ => Or.inr trivial, fun _ => ⟨.xyzBadCount, rfl⟩⟩
    · next n hint =>
        by_cases hneg : n < 0
        · constructor
          · intro _
            exact Or.inr (Or.inl hneg)
          · intro _
            cases hmap : exceptMapM parseAtomLine (pySlice (stripLines ls) 2 (2 + n)) with
            | error e => exact ⟨e, rfl⟩
            | ok bs =>
                dsimp only
                refine ⟨.xyzCountMismatch n bs.length, ?_⟩
                rw [if_pos (by omega : ¬ ((bs.length : ℤ) = n))]
        · push_neg at hneg
          rw [pySlice_two_nonneg _ n hlen2 hneg]
          cases hmap : exceptMapM parseAtomLine (((stripLines ls).drop 2).take n.toNat) with
          | error e =>
              constructor
              · intro _
                obtain ⟨a, ha, e', he'⟩ := exceptMapM_mem_error parseAtomLine hmap
                exact Or.inr (Or.inr (Or.inr ⟨a, ha, parseAtomLine_bad_of_error a e' he'⟩))
              · intro _
                exact ⟨e, rfl⟩
          | ok bs =>
              dsimp only
              have hbsl : bs.length = min n.toNat ((stripLines ls).length - 2) := by
                rw [exceptMapM_length parseAtomLine hmap]
                simp [List.length_take, List.length_drop]
              by_cases hne : (bs.length : ℤ) ≠ n
              · rw [if_pos hne]
                constructor
                · intro _
                  exact Or.inr (Or.inr (Or.inl (by omega)))
                · intro _
                  exact ⟨.xyzCountMismatch n bs.length, rfl⟩
              · rw [if_neg hne]
                push_neg at hne
                constructor
                · rintro ⟨e, he⟩
                  exact Except.noConfusion he
                · rintro (hc | hc | hc | ⟨l, hl, hbad⟩)
                  · exact absurd hc h2
                  · omega
                  · omega
                  · obtain ⟨e', he'⟩ := parseAtomLine_error_of_bad l hbad
                    obtain ⟨e'', he''⟩ := exceptMapM_error_of_mem parseAtomLine hl he'
                    rw [he''] at hmap
                    exact Except.noConfusion hmap

/-- Closed witness for `parse_failure_condition_amended`: the file declaring
3 atoms with only 2 data lines satisfies the amended failure condition, and
parsing it indeed fails. -/
theorem parse_failure_condition_amended_witness :
    (∃ e, parseXyz ["3", "comment", "H 0 0 0", "H 0 0 1"] = .error e) := by
  refine (parse_failure_condition_amended ["3", "comment", "H 0 0 0", "H 0 0 1"]).mpr ?_
  exact Or.inr (Or.inr (Or.inl (by decide)))

end QERP
